import Mathlib

/-!
Verification of the `tidy` source-to-source rewriter (src/tidy/transformers.py,
src/tidy/main.py) against its specification.

The program is built on libCST: a concrete syntax tree whose nodes carry their
trivia (blank/comment lines in `leading_lines`, inline comments in
`trailing_whitespace`).  We embed the fragment of the libCST node model that the
seven transformer classes inspect, together with the visitor semantics they rely
on:

* `leave_Expr` / `leave_SimpleStatementLine` hooks returning
  `RemovalSentinel.REMOVE` delete the node from its parent sequence
  (libcst/_nodes/internal.py, `visit_iterable`); a `SimpleStatementLine` whose
  small-statement body becomes empty is itself dropped by the parent's
  `visit_body_iterable` because `_is_removable` is then true
  (libcst/_nodes/statement.py).  The dropped line takes its `leading_lines`
  with it: nothing in libCST or in the transformers re-attaches them.
* `libcst.Module` is a frozen slotted dataclass with fields
  `body`, `header`, `footer`, `encoding`, `default_indent`, `default_newline`,
  `has_trailing_newline` (libcst/_nodes/module.py).  It has no `leading_lines`
  attribute, so the `leave_Module` hooks of `LeadingCommentRemover` and
  `HeaderCommentRemover`, which read `updated_node.leading_lines`, raise
  `AttributeError` on every module.  `process_file` (main.py lines 119-121)
  catches every exception and leaves the file untouched.

Formatting-only fields that no transformer reads (indentation flags, newline
styles, parameter lists, decorators) are modelled at libCST's default values;
code rendering (`Module.code`) follows libCST's default codegen on this
fragment.
-/

namespace Tidy

/-- libCST `Comment`: the raw text of a comment, starting with `#`. -/
structure Comment where
  value : String

/-- libCST `TrailingWhitespace`: optional whitespace and comment between the end
of a logical line and its newline.  (`SimpleStatementLine.trailing_whitespace`,
and `IndentedBlock.header` after the colon of a compound statement.) -/
structure TrailingWhitespace where
  whitespace : String
  comment : Option Comment

/-- libCST `EmptyLine`: one blank-or-comment line appearing as leading trivia
(`leading_lines` of statements, `header`/`footer` of `Module`). -/
structure EmptyLine where
  whitespace : String
  comment : Option Comment

/-- The expression fragment the transformers inspect: `Name`, `Integer`,
`SimpleString`, `Attribute`, `Call`, `BinaryOperation` (libcst nodes of the
same names).  Call arguments are modelled as the argument expressions. -/
inductive Expression where
  | Name (value : String)
  | Integer (value : String)
  | SimpleString (value : String)
  | Attribute (value : Expression) (attr : String)
  | Call (func : Expression) (args : List Expression)
  | BinaryOperation (left : Expression) (operator : String) (right : Expression)

/-- The small statements (members of a `SimpleStatementLine.body`) the
transformers distinguish: `Expr` (standalone expression statement), `Assert`,
and `Assign` (modelled with a single `Name` target, all the claims need). -/
inductive SmallStatement where
  | Expr (value : Expression)
  | Assert (test : Expression) (msg : Option Expression)
  | Assign (target : String) (value : Expression)

mutual

/-- Statement-level nodes: `SimpleStatementLine` (leading trivia, small
statements, trailing trivia) and the compound statements `FunctionDef` and
`ClassDef`, whose `IndentedBlock` body is modelled as the block's header
trailing-whitespace (the trivia after the colon) plus the statement list. -/
inductive Statement where
  | SimpleStatementLine (leading_lines : List EmptyLine)
      (body : List SmallStatement) (trailing_whitespace : TrailingWhitespace)
  | FunctionDef (leading_lines : List EmptyLine) (name : String)
      (whitespace_after_colon : TrailingWhitespace) (body : StatementList)
  | ClassDef (leading_lines : List EmptyLine) (name : String)
      (whitespace_after_colon : TrailingWhitespace) (body : StatementList)

/-- A sequence of statements (a `Module.body` or `IndentedBlock.body`). -/
inductive StatementList where
  | nil
  | cons (head : Statement) (tail : StatementList)

end

/-- libCST `Module`: header trivia, statement body, footer trivia.  (The
formatting fields `encoding`, `default_indent`, `default_newline`,
`has_trailing_newline` are fixed at their defaults.)  Note the set of fields:
there is no `leading_lines` on `Module`. -/
structure Module where
  header : List EmptyLine
  body : StatementList
  footer : List EmptyLine

/-- Python `needle in haystack` on strings (substring containment), prefix
test part. -/
def charsPrefixOf : List Char → List Char → Bool
  | [], _ => true
  | _ :: _, [] => false
  | c :: cs, d :: ds => c == d && charsPrefixOf cs ds

/-- Python `needle in haystack` on strings (substring containment), scan over
every suffix of the haystack. -/
def charsInfixOf (needle : List Char) : List Char → Bool
  | [] => charsPrefixOf needle []
  | d :: ds => charsPrefixOf needle (d :: ds) || charsInfixOf needle ds

/-- Python `needle in haystack` for strings. -/
def strContains (needle haystack : String) : Bool :=
  charsInfixOf needle.toList haystack.toList

/-- Python `str.startswith`. -/
def pyStartsWith (s pre : String) : Bool :=
  charsPrefixOf pre.toList s.toList

/-- The whitespace characters stripped by Python `str.strip()`. -/
def pyIsSpace (c : Char) : Bool :=
  c == ' ' || c == '\t' || c == '\n' || c == '\r' || c == '\x0b' || c == '\x0c'

/-- Python `str.strip()`: drop leading and trailing whitespace. -/
def pyStrip (s : String) : String :=
  String.mk (((s.toList.dropWhile pyIsSpace).reverse.dropWhile
    pyIsSpace).reverse)

/-- Python `str.lower()` on the ASCII range. -/
def pyLower (s : String) : String :=
  String.mk (s.toList.map Char.toLower)

/-- Matcher `m.Call(func=m.Name("print"))` (transformers.py line 15): the
expression is a `Call` whose callee is the plain `Name` `print`. -/
def matchesCallNamePrint : Expression → Bool
  | .Call (.Name v) _ => v == "print"
  | _ => false

/-- Matcher `m.Call(func=m.Attribute())` (transformers.py line 16): the
expression is a `Call` whose callee is an `Attribute` access. -/
def matchesCallAttribute : Expression → Bool
  | .Call (.Attribute _ _) _ => true
  | _ => false

/-- The removal condition of `PrintRemover.leave_Expr` (transformers.py lines
15-16): matches `Call(func=Name("print"))` and does not match
`Call(func=Attribute())`. -/
def PrintRemover.matchesPrint (e : Expression) : Bool :=
  matchesCallNamePrint e && !matchesCallAttribute e

/-- The default level set of `LogRemover.__init__` (transformers.py line
170). -/
def defaultLogLevels : List String :=
  ["trace", "debug", "info", "warning", "success", "error", "exception",
   "critical"]

/-- `LogRemover.__init__` (transformers.py lines 167-170):
`self.log_levels = log_levels or {"trace", ...}` — a `None` argument and an
empty set are both falsy in Python, so both select the default set. -/
def LogRemover.mkLevels : Option (List String) → List String
  | none => defaultLogLevels
  | some ls => if ls.isEmpty then defaultLogLevels else ls

/-- The removal condition of `LogRemover.leave_Expr` (transformers.py lines
174-187): the expression is a `Call` whose callee is an `Attribute` whose
`attr` is a `Name` in the configured level set and whose `value` is a `Name`
in `{"log", "logger", "logging"}`. -/
def LogRemover.matchesLog (log_levels : List String) : Expression → Bool
  | .Call (.Attribute (.Name base_name) attr) _ =>
      log_levels.contains attr &&
        ["log", "logger", "logging"].contains base_name
  | _ => false

/-- Visit of one small statement by a transformer whose only hook is
`leave_Expr` returning `REMOVE` when predicate `p` holds of the expression
(`PrintRemover`, `LogRemover`): the `Expr` is dropped from its parent
sequence and the removed count incremented; all other small statements are
untouched. -/
def exprRemoverSmall (p : Expression → Bool) :
    SmallStatement → Option SmallStatement × Nat
  | .Expr v => if p v then (none, 1) else (some (.Expr v), 0)
  | s => (some s, 0)

/-- Visit of a `SimpleStatementLine.body` sequence (libCST `visit_sequence`):
each small statement is visited and `RemovalSentinel` results are dropped. -/
def exprRemoverSmalls (p : Expression → Bool) :
    List SmallStatement → List SmallStatement × Nat
  | [] => ([], 0)
  | s :: rest =>
    let r := exprRemoverSmalls p rest
    match exprRemoverSmall p s with
    | (none, k) => (r.1, k + r.2)
    | (some s', k) => (s' :: r.1, k + r.2)

mutual

/-- Visit of one statement by an expression-statement remover.  A
`SimpleStatementLine` whose body becomes empty (and was not empty before) is
itself dropped by the parent's `visit_body_iterable`, because its
`_is_removable` is then true — its `leading_lines` disappear with it. -/
def exprRemoverStmt (p : Expression → Bool) :
    Statement → Option Statement × Nat
  | .SimpleStatementLine ll body tw =>
    let r := exprRemoverSmalls p body
    if r.1.isEmpty && !body.isEmpty then (none, r.2)
    else (some (.SimpleStatementLine ll r.1 tw), r.2)
  | .FunctionDef ll n w body =>
    let r := exprRemoverStmts p body
    (some (.FunctionDef ll n w r.1), r.2)
  | .ClassDef ll n w body =>
    let r := exprRemoverStmts p body
    (some (.ClassDef ll n w r.1), r.2)

/-- Visit of a statement sequence (libCST `visit_body_sequence`). -/
def exprRemoverStmts (p : Expression → Bool) :
    StatementList → StatementList × Nat
  | .nil => (.nil, 0)
  | .cons s rest =>
    let rr := exprRemoverStmts p rest
    match exprRemoverStmt p s with
    | (none, k) => (rr.1, k + rr.2)
    | (some s', k) => (.cons s' rr.1, k + rr.2)

end

/-- `module.visit(PrintRemover())`: the module's statement body is rewritten;
header and footer trivia hold no `Expr` nodes and are untouched. -/
def PrintRemover.pass (m : Module) : Module × Nat :=
  let r := exprRemoverStmts PrintRemover.matchesPrint m.body
  (Module.mk m.header r.1 m.footer, r.2)

/-- `module.visit(LogRemover(log_levels))` with an already-constructed level
set. -/
def LogRemover.pass (log_levels : List String) (m : Module) : Module × Nat :=
  let r := exprRemoverStmts (LogRemover.matchesLog log_levels) m.body
  (Module.mk m.header r.1 m.footer, r.2)

/-- The preserved-comment keywords of `InlineCommentRemover` (transformers.py
line 35). -/
def preservedKeywords : List String := ["noqa", "type:", "pragma"]

/-- `any(keyword in comment_text for keyword in ["noqa", "type:", "pragma"])`
(transformers.py line 35). -/
def containsAnyKeyword (comment_text : String) : Bool :=
  preservedKeywords.any (fun keyword => strContains keyword comment_text)

/-- `InlineCommentRemover.leave_TrailingWhitespace` (transformers.py lines
29-42): when a comment is present, keep the node if `remove_all` is false and
the comment text holds a preserved keyword, otherwise strip the comment (the
whitespace stays) and count one removal. -/
def InlineCommentRemover.leaveTrailing (remove_all : Bool)
    (tw : TrailingWhitespace) : TrailingWhitespace × Nat :=
  match tw.comment with
  | some c =>
    if !remove_all && containsAnyKeyword c.value then (tw, 0)
    else (TrailingWhitespace.mk tw.whitespace none, 1)
  | none => (tw, 0)

mutual

/-- Visit of one statement by `InlineCommentRemover`: the transformer's only
hook rewrites every `TrailingWhitespace` node, which occur as a line's
`trailing_whitespace` and as the `IndentedBlock.header` after a compound
statement's colon.  `EmptyLine` comments are untouched (they are not
`TrailingWhitespace`). -/
def inlineStmt (remove_all : Bool) : Statement → Statement × Nat
  | .SimpleStatementLine ll body tw =>
    let r := InlineCommentRemover.leaveTrailing remove_all tw
    (.SimpleStatementLine ll body r.1, r.2)
  | .FunctionDef ll n w body =>
    let rw := InlineCommentRemover.leaveTrailing remove_all w
    let rb := inlineStmts remove_all body
    (.FunctionDef ll n rw.1 rb.1, rw.2 + rb.2)
  | .ClassDef ll n w body =>
    let rw := InlineCommentRemover.leaveTrailing remove_all w
    let rb := inlineStmts remove_all body
    (.ClassDef ll n rw.1 rb.1, rw.2 + rb.2)

/-- Visit of a statement sequence by `InlineCommentRemover`. -/
def inlineStmts (remove_all : Bool) : StatementList → StatementList × Nat
  | .nil => (.nil, 0)
  | .cons s rest =>
    let rs := inlineStmt remove_all s
    let rr := inlineStmts remove_all rest
    (.cons rs.1 rr.1, rs.2 + rr.2)

end

/-- `module.visit(InlineCommentRemover(remove_all))`. -/
def InlineCommentRemover.pass (remove_all : Bool) (m : Module) :
    Module × Nat :=
  let r := inlineStmts remove_all m.body
  (Module.mk m.header r.1 m.footer, r.2)

/-- The removal condition of `AssertRemover.leave_SimpleStatementLine`
(transformers.py lines 157-158): the line's body is a single `Assert`. -/
def AssertRemover.isAssertLine : List SmallStatement → Bool
  | [.Assert _ _] => true
  | _ => false

mutual

/-- Visit of one statement by `AssertRemover`: a line holding exactly one
`Assert` is removed (`RemovalSentinel.REMOVE`), taking its `leading_lines`
with it; compound statements are traversed. -/
def assertStmt : Statement → Option Statement × Nat
  | .SimpleStatementLine ll body tw =>
    if AssertRemover.isAssertLine body then (none, 1)
    else (some (.SimpleStatementLine ll body tw), 0)
  | .FunctionDef ll n w body =>
    let r := assertStmts body
    (some (.FunctionDef ll n w r.1), r.2)
  | .ClassDef ll n w body =>
    let r := assertStmts body
    (some (.ClassDef ll n w r.1), r.2)

/-- Visit of a statement sequence by `AssertRemover`. -/
def assertStmts : StatementList → StatementList × Nat
  | .nil => (.nil, 0)
  | .cons s rest =>
    let rr := assertStmts rest
    match assertStmt s with
    | (none, k) => (rr.1, k + rr.2)
    | (some s', k) => (.cons s' rr.1, k + rr.2)

end

/-- `module.visit(AssertRemover())`. -/
def AssertRemover.pass (m : Module) : Module × Nat :=
  let r := assertStmts m.body
  (Module.mk m.header r.1 m.footer, r.2)

/-- The docstring test shared by the three `DocstringRemover` hooks
(transformers.py lines 114-118, 126-130, 138-142): the first statement is a
`SimpleStatementLine` whose body is a single `Expr` holding a
`SimpleString`. -/
def DocstringRemover.isDocstringLine : Statement → Bool
  | .SimpleStatementLine _ [.Expr (.SimpleString _)] _ => true
  | _ => false

/-- Drop the body's first statement when it is a docstring line (the
`with_changes(body=body[1:])` step of each `DocstringRemover` hook):
the dropped line disappears together with its own `leading_lines`. -/
def DocstringRemover.dropDocstring : StatementList → StatementList × Nat
  | .nil => (.nil, 0)
  | .cons first rest =>
    if DocstringRemover.isDocstringLine first then (rest, 1)
    else (.cons first rest, 0)

mutual

/-- Visit of one statement by `DocstringRemover`: `leave_FunctionDef` and
`leave_ClassDef` run after the children have been rewritten (libCST leaves
bottom-up) and drop the body's leading docstring line. -/
def docStmt : Statement → Statement × Nat
  | .SimpleStatementLine ll body tw => (.SimpleStatementLine ll body tw, 0)
  | .FunctionDef ll n w body =>
    let r := docStmts body
    let d := DocstringRemover.dropDocstring r.1
    (.FunctionDef ll n w d.1, r.2 + d.2)
  | .ClassDef ll n w body =>
    let r := docStmts body
    let d := DocstringRemover.dropDocstring r.1
    (.ClassDef ll n w d.1, r.2 + d.2)

/-- Visit of a statement sequence by `DocstringRemover`. -/
def docStmts : StatementList → StatementList × Nat
  | .nil => (.nil, 0)
  | .cons s rest =>
    let rs := docStmt s
    let rr := docStmts rest
    (.cons rs.1 rr.1, rs.2 + rr.2)

end

/-- `module.visit(DocstringRemover())`: children first, then `leave_Module`
drops the module-level docstring. -/
def DocstringRemover.pass (m : Module) : Module × Nat :=
  let r := docStmts m.body
  let d := DocstringRemover.dropDocstring r.1
  (Module.mk m.header d.1 m.footer, r.2 + d.2)

/-- The Python exceptions relevant to this program. -/
inductive PyErr where
  | attributeError
  | parseError

/-- The string-literal exemption of
`LeadingCommentRemover.leave_SimpleStatementLine` (transformers.py lines
65-67): a line whose body is a single `Expr` holding a `SimpleString` is
returned unchanged (with its leading lines). -/
def LeadingCommentRemover.isStringLiteralLine : List SmallStatement → Bool
  | [.Expr (.SimpleString _)] => true
  | _ => false

/-- `original_node.leading_lines and any(isinstance(line, EmptyLine) and
line.comment for line in original_node.leading_lines)` (transformers.py lines
72-73). -/
def LeadingCommentRemover.hasCommentLine (ll : List EmptyLine) : Bool :=
  !ll.isEmpty && ll.any (fun line => line.comment.isSome)

mutual

/-- Visit of one statement by `LeadingCommentRemover`'s
`leave_SimpleStatementLine` hook: a non-string-literal line that has any
leading comment line is removed WHOLE (`RemovalSentinel.REMOVE`) — the code
statement itself is deleted, not just its comments. -/
def leadingStmt : Statement → Option Statement × Nat
  | .SimpleStatementLine ll body tw =>
    if LeadingCommentRemover.isStringLiteralLine body then
      (some (.SimpleStatementLine ll body tw), 0)
    else if LeadingCommentRemover.hasCommentLine ll then (none, 1)
    else (some (.SimpleStatementLine ll body tw), 0)
  | .FunctionDef ll n w body =>
    let r := leadingStmts body
    (some (.FunctionDef ll n w r.1), r.2)
  | .ClassDef ll n w body =>
    let r := leadingStmts body
    (some (.ClassDef ll n w r.1), r.2)

/-- Visit of a statement sequence by `LeadingCommentRemover`. -/
def leadingStmts : StatementList → StatementList × Nat
  | .nil => (.nil, 0)
  | .cons s rest =>
    let rr := leadingStmts rest
    match leadingStmt s with
    | (none, k) => (rr.1, k + rr.2)
    | (some s', k) => (.cons s' rr.1, k + rr.2)

end

/-- `module.visit(LeadingCommentRemover())`: the children are rewritten first
(`leadingStmts`), but the final `leave_Module` hook (transformers.py line 53)
reads `updated_node.leading_lines`, a field `libcst.Module` does not have
(its fields are `body`, `header`, `footer`, ...), so the traversal raises
`AttributeError` on every module and never returns a tree. -/
def LeadingCommentRemover.pass (m : Module) : Except PyErr (Module × Nat) :=
  match leadingStmts m.body with
  | _ => Except.error PyErr.attributeError

/-- The header-comment classification of `HeaderCommentRemover.leave_Module`
(transformers.py lines 93-98), applied to `line.comment.value.strip()`:
shebang, a text containing `coding` case-insensitively, an emacs coding
cookie, or a vim modeline. -/
def HeaderCommentRemover.isHeaderComment (raw : String) : Bool :=
  let comment_text := pyStrip raw
  pyStartsWith comment_text "#!" ||
    strContains "coding" (pyLower comment_text) ||
    pyStartsWith comment_text "# -*- coding:" ||
    pyStartsWith comment_text "# vim:"

/-- `module.visit(HeaderCommentRemover())`: the only hook, `leave_Module`
(transformers.py line 89), reads `updated_node.leading_lines`, a field
`libcst.Module` does not have, so the traversal raises `AttributeError` on
every module before any classification runs. -/
def HeaderCommentRemover.pass (_m : Module) : Except PyErr (Module × Nat) :=
  Except.error PyErr.attributeError

/-- Codegen of one `EmptyLine` at libCST defaults: its whitespace, its
comment text if any, and the newline. -/
def EmptyLine.render (e : EmptyLine) : String :=
  e.whitespace ++ (match e.comment with | some c => c.value | none => "") ++ "\n"

/-- Codegen of a sequence of `EmptyLine`s. -/
def renderLines : List EmptyLine → String
  | [] => ""
  | e :: rest => e.render ++ renderLines rest

/-- Codegen of a `TrailingWhitespace`: whitespace, optional comment, newline. -/
def TrailingWhitespace.render (t : TrailingWhitespace) : String :=
  t.whitespace ++ (match t.comment with | some c => c.value | none => "") ++ "\n"

mutual

/-- Codegen of the expression fragment at libCST default formatting. -/
def Expression.render : Expression → String
  | .Name v => v
  | .Integer v => v
  | .SimpleString v => v
  | .Attribute val a => Expression.render val ++ "." ++ a
  | .Call f args => Expression.render f ++ "(" ++ Expression.renderArgs args ++ ")"
  | .BinaryOperation l op r =>
    Expression.render l ++ " " ++ op ++ " " ++ Expression.render r

/-- Codegen of a call's argument list, comma-separated. -/
def Expression.renderArgs : List Expression → String
  | [] => ""
  | [e] => Expression.render e
  | e :: e2 :: rest => Expression.render e ++ ", " ++ Expression.renderArgs (e2 :: rest)

end

/-- Codegen of one small statement. -/
def SmallStatement.render : SmallStatement → String
  | .Expr v => v.render
  | .Assert t none => "assert " ++ t.render
  | .Assert t (some msg) => "assert " ++ t.render ++ ", " ++ msg.render
  | .Assign x v => x ++ " = " ++ v.render

/-- Codegen of a `SimpleStatementLine.body`, semicolon-joined. -/
def renderSmalls : List SmallStatement → String
  | [] => ""
  | [s] => s.render
  | s :: s2 :: rest => s.render ++ "; " ++ renderSmalls (s2 :: rest)

mutual

/-- Codegen of one statement at the given indentation (libCST default
indent is four spaces per level; parameters/bases are not modelled, so a
`FunctionDef` renders with an empty parameter list). -/
def Statement.render (indent : String) : Statement → String
  | .SimpleStatementLine ll body tw =>
    renderLines ll ++ indent ++ renderSmalls body ++ tw.render
  | .FunctionDef ll n w body =>
    renderLines ll ++ indent ++ "def " ++ n ++ "():" ++ w.render ++
      StatementList.render (indent ++ "    ") body
  | .ClassDef ll n w body =>
    renderLines ll ++ indent ++ "class " ++ n ++ ":" ++ w.render ++
      StatementList.render (indent ++ "    ") body

/-- Codegen of a statement sequence. -/
def StatementList.render (indent : String) : StatementList → String
  | .nil => ""
  | .cons s rest => Statement.render indent s ++ StatementList.render indent rest

end

/-- `Module.code` (the re-serialized text written back by `process_file`). -/
def Module.code (m : Module) : String :=
  renderLines m.header ++ StatementList.render "" m.body ++ renderLines m.footer

/-- The five per-category counters of `process_file` (main.py lines 41-45). -/
structure Counts where
  prints : Nat
  comments : Nat
  docstrings : Nat
  asserts : Nat
  logs : Nat

/-- All-zero counts, the values before the `try` block runs. -/
def Counts.zero : Counts := Counts.mk 0 0 0 0 0

/-- The write-back guard of `process_file` (main.py line 115):
`prints_removed > 0 or comments_removed > 0 or ...`. -/
def Counts.anyPositive (c : Counts) : Bool :=
  decide (0 < c.prints) || decide (0 < c.comments) ||
    decide (0 < c.docstrings) || decide (0 < c.asserts) || decide (0 < c.logs)

/-- The total number of removals across the five categories. -/
def Counts.total (c : Counts) : Nat :=
  c.prints + c.comments + c.docstrings + c.asserts + c.logs

/-- The `comment_options` dict built by `main` (main.py lines 191-204),
one flag per submode; `defaultMode` models the dict key `"default"`. -/
structure CommentOptions where
  all : Bool
  inline : Bool
  leading : Bool
  header : Bool
  defaultMode : Bool

/-- The arguments of `process_file` that select the passes (main.py lines
37-39). -/
structure Request where
  remove_prints : Bool
  remove_comments : Bool
  remove_docstrings : Bool
  remove_asserts : Bool
  remove_logs : Bool
  comment_options : CommentOptions
  log_levels : Option (List String)

/-- The `header` and `default` steps of the non-`all` comments branch
(main.py lines 89-97), run after `inline` and `leading` have been handled;
`acc` is the `comments_removed` accumulated so far.  An `Except.error`
carries the accumulated count at the point the exception was raised, since
the Python locals keep their values when the `try` block is aborted. -/
def runCommentsTail (opts : CommentOptions) (m : Module) (acc : Nat) :
    Except Nat (Module × Nat) :=
  if opts.header then
    match HeaderCommentRemover.pass m with
    | .error _ => .error acc
    | .ok rh =>
      if opts.defaultMode then
        let ri := InlineCommentRemover.pass false rh.1
        .ok (ri.1, acc + rh.2 + ri.2)
      else .ok (rh.1, acc + rh.2)
  else
    if opts.defaultMode then
      let ri := InlineCommentRemover.pass false m
      .ok (ri.1, acc + ri.2)
    else .ok (m, acc)

/-- The comments branch of `process_file` (main.py lines 61-97): the `all`
composite runs inline-all, leading, header in order; otherwise the `inline`,
`leading`, `header`, `default` flags are honoured in that order.  The
`leading` and `header` passes raise `AttributeError` (see
`LeadingCommentRemover.pass`), which aborts the branch with the count
accumulated so far. -/
def runComments (opts : CommentOptions) (m1 : Module) :
    Except Nat (Module × Nat) :=
  if opts.all then
    let ri := InlineCommentRemover.pass true m1
    match LeadingCommentRemover.pass ri.1 with
    | .error _ => .error ri.2
    | .ok rl =>
      match HeaderCommentRemover.pass rl.1 with
      | .error _ => .error (ri.2 + rl.2)
      | .ok rh => .ok (rh.1, ri.2 + rl.2 + rh.2)
  else
    let ri := if opts.inline then InlineCommentRemover.pass true m1 else (m1, 0)
    if opts.leading then
      match LeadingCommentRemover.pass ri.1 with
      | .error _ => .error ri.2
      | .ok rl => runCommentsTail opts rl.1 (ri.2 + rl.2)
    else runCommentsTail opts ri.1 ri.2

/-- The pass sequence of `process_file` (main.py lines 56-112): prints, then
comments, then docstrings, asserts, logs.  The result module is `none` when
an exception aborted the `try` block; the counts are the values the Python
locals held at that point. -/
def runPasses (m0 : Module) (req : Request) : Option Module × Counts :=
  let rp := if req.remove_prints then PrintRemover.pass m0 else (m0, 0)
  match (if req.remove_comments then runComments req.comment_options rp.1
         else .ok (rp.1, 0)) with
  | .error k => (none, Counts.mk rp.2 k 0 0 0)
  | .ok rc =>
    let rd := if req.remove_docstrings then DocstringRemover.pass rc.1
              else (rc.1, 0)
    let ra := if req.remove_asserts then AssertRemover.pass rd.1 else (rd.1, 0)
    let rl := if req.remove_logs then
                LogRemover.pass (LogRemover.mkLevels req.log_levels) ra.1
              else (ra.1, 0)
    (some rl.1, Counts.mk rp.2 rc.2 rd.2 ra.2 rl.2)

/-- `process_file` (main.py lines 37-123) on one file: `parsed` is the
outcome of `cst.parse_module(source_code)` (`none` when parsing raised).  The
new text is written back only when some counter is positive; any exception
leaves the original text in place and returns the counters accumulated so
far (`except Exception: pass`). -/
def process_file (source_code : String) (parsed : Option Module)
    (req : Request) : String × Counts :=
  match parsed with
  | none => (source_code, Counts.zero)
  | some module =>
    match runPasses module req with
    | (none, counts) => (source_code, counts)
    | (some module', counts) =>
      if counts.anyPositive then (Module.code module', counts)
      else (source_code, counts)

/-- The per-file loop of `main` (main.py lines 247-250): every discovered
file is processed independently; `process_file` never raises, so no file
aborts the run. -/
def runAll (files : List (String × Option Module)) (req : Request) :
    List (String × Counts) :=
  files.map (fun f => process_file f.1 f.2 req)

/-- A request for `tidy comments --leading`. -/
def leadingReq : Request :=
  Request.mk false true false false false
    (CommentOptions.mk false false true false false) none

/-- A request for `tidy comments --header`. -/
def headerReq : Request :=
  Request.mk false true false false false
    (CommentOptions.mk false false false true false) none

/-- A code statement `x = 1` preceded by a standalone comment line. -/
def commentedAssign : Statement :=
  .SimpleStatementLine [EmptyLine.mk "" (some (Comment.mk "# a comment"))]
    [.Assign "x" (.Integer "1")] (TrailingWhitespace.mk "" none)

/-- If all five counters are zero, the write-back guard is off. -/
theorem anyPositive_eq_false_of_total_eq_zero (c : Counts)
    (h : c.total = 0) : c.anyPositive = false := by
  cases c
  simp only [Counts.total] at h
  simp only [Counts.anyPositive, Bool.or_eq_false_iff, decide_eq_false_iff_not,
    Nat.not_lt, Nat.le_zero]
  omega

/-- C7: for every input file and every requested category, if the total
removed count is 0 then the output text equals the input text exactly: the
file's bytes are left untouched whenever nothing matched (the write at
main.py line 116 is guarded by main.py line 115). -/
theorem process_file_total_zero_output_unchanged (source_code : String)
    (parsed : Option Module) (req : Request)
    (h : (process_file source_code parsed req).2.total = 0) :
    (process_file source_code parsed req).1 = source_code := by
  cases parsed with
  | none => rfl
  | some module =>
    simp only [process_file] at h ⊢
    cases hr : runPasses module req with
    | mk om counts =>
      cases om with
      | none => simp [hr]
      | some module' =>
        simp only [hr] at h ⊢
        have h' : counts.total = 0 := by
          cases hA : counts.anyPositive <;> simp [hA] at h <;> exact h
        rw [anyPositive_eq_false_of_total_eq_zero counts h']
        simp

/-- A one-statement module `x = 1` with no removable content. -/
def plainMod : Module :=
  Module.mk []
    (.cons (.SimpleStatementLine [] [.Assign "x" (.Integer "1")]
      (TrailingWhitespace.mk "" none)) .nil) []

/-- A request for `tidy prints`. -/
def printsReq : Request :=
  Request.mk true false false false false
    (CommentOptions.mk false false false false false) none

/-- Witness for C7: removing prints from `x = 1` removes nothing, and the
original text comes back byte-for-byte. -/
theorem process_file_total_zero_output_unchanged_witness :
    (process_file "x = 1\n" (some plainMod) printsReq).2.total = 0 ∧
      (process_file "x = 1\n" (some plainMod) printsReq).1 = "x = 1\n" :=
  ⟨rfl, process_file_total_zero_output_unchanged "x = 1\n" (some plainMod)
    printsReq rfl⟩

/-- C9: a file whose source fails to parse produces all-zero counts and its
text is returned untouched (`cst.parse_module` raises, the `except` at
main.py line 119 swallows it before any write), and a failing file in the
middle of a run leaves every other file's processing unchanged. -/
theorem parse_failure_zero_counts_and_isolated :
    (∀ (source_code : String) (req : Request),
      process_file source_code none req = (source_code, Counts.zero)) ∧
    (∀ (pre suf : List (String × Option Module)) (source_code : String)
        (req : Request),
      runAll (pre ++ (source_code, none) :: suf) req =
        runAll pre req ++ (source_code, Counts.zero) :: runAll suf req) := by
  refine ⟨fun s req => rfl, fun pre suf s req => ?_⟩
  simp only [runAll, List.map_append, List.map_cons]
  rfl

/-- C10: an absent (`None`) or empty level set is replaced by the full
default set of eight levels (`log_levels or {...}` — both arguments are
falsy in Python), so an empty set is never honored as "remove nothing". -/
theorem log_levels_empty_set_means_default :
    LogRemover.mkLevels none = defaultLogLevels ∧
    LogRemover.mkLevels (some []) = defaultLogLevels ∧
    defaultLogLevels = ["trace", "debug", "info", "warning", "success",
      "error", "exception", "critical"] ∧
    (∀ m : Module, LogRemover.pass (LogRemover.mkLevels (some [])) m =
      LogRemover.pass defaultLogLevels m) ∧
    (∀ m : Module, LogRemover.pass (LogRemover.mkLevels none) m =
      LogRemover.pass defaultLogLevels m) :=
  ⟨rfl, rfl, rfl, fun _ => rfl, fun _ => rfl⟩

/-- C2 (bug): in leading comment mode nothing is ever removed — the
traversal raises `AttributeError` reading `Module.leading_lines` (a field
`libcst.Module` does not have), so every file is skipped with zero counts;
moreover the `leave_SimpleStatementLine` hook, had the traversal completed,
deletes the whole code statement that carries a leading comment, not just
the comment line. -/
theorem leading_mode_crashes_and_deletes_statements :
    (∀ m : Module,
      LeadingCommentRemover.pass m = Except.error PyErr.attributeError) ∧
    (∀ (source_code : String) (m : Module),
      process_file source_code (some m) leadingReq =
        (source_code, Counts.zero)) ∧
    leadingStmts (.cons commentedAssign .nil) = (.nil, 1) :=
  ⟨fun _ => rfl, fun _ _ => rfl, rfl⟩

/-- An empty trailing-whitespace node (no inline comment). -/
def twNone : TrailingWhitespace := TrailingWhitespace.mk "" none

/-- A line `x = 5  # type: int`. -/
def c6Line1 : Statement :=
  .SimpleStatementLine [] [.Assign "x" (.Integer "5")]
    (TrailingWhitespace.mk "  " (some (Comment.mk "# type: int")))

/-- A line `y = 1  # a plain comment`. -/
def c6Line2 : Statement :=
  .SimpleStatementLine [] [.Assign "y" (.Integer "1")]
    (TrailingWhitespace.mk "  " (some (Comment.mk "# a plain comment")))

/-- A module with one preserved-keyword inline comment and one plain one. -/
def c6Mod : Module := Module.mk [] (.cons c6Line1 (.cons c6Line2 .nil)) []

/-- `c6Mod` after default inline mode: only the plain comment is stripped
(the whitespace before it stays). -/
def c6ModDefault : Module :=
  Module.mk []
    (.cons c6Line1
      (.cons (.SimpleStatementLine [] [.Assign "y" (.Integer "1")]
        (TrailingWhitespace.mk "  " none)) .nil)) []

/-- `c6Mod` after inline all mode: both comments are stripped. -/
def c6ModAll : Module :=
  Module.mk []
    (.cons (.SimpleStatementLine [] [.Assign "x" (.Integer "5")]
      (TrailingWhitespace.mk "  " none))
      (.cons (.SimpleStatementLine [] [.Assign "y" (.Integer "1")]
        (TrailingWhitespace.mk "  " none)) .nil)) []

/-- C6: in default inline mode a trailing comment is removed unless its text
contains `noqa`, `type:` or `pragma` as a raw substring, in which case the
node is returned unchanged (comment verbatim); in all mode the comment is
removed unconditionally.  Checked on every trailing-trivia node and on a
concrete module under both modes. -/
theorem inline_comment_keyword_preservation :
    (∀ (ws : String) (c : Comment),
      InlineCommentRemover.leaveTrailing false
          (TrailingWhitespace.mk ws (some c)) =
        if strContains "noqa" c.value || strContains "type:" c.value ||
            strContains "pragma" c.value
        then (TrailingWhitespace.mk ws (some c), 0)
        else (TrailingWhitespace.mk ws none, 1)) ∧
    (∀ (ws : String) (c : Comment),
      InlineCommentRemover.leaveTrailing true
          (TrailingWhitespace.mk ws (some c)) =
        (TrailingWhitespace.mk ws none, 1)) ∧
    (∀ (ws : String) (ra : Bool),
      InlineCommentRemover.leaveTrailing ra (TrailingWhitespace.mk ws none) =
        (TrailingWhitespace.mk ws none, 0)) ∧
    InlineCommentRemover.pass false c6Mod = (c6ModDefault, 1) ∧
    InlineCommentRemover.pass true c6Mod = (c6ModAll, 2) := by
  refine ⟨fun ws c => ?_, fun ws c => ?_, fun ws ra => ?_, rfl, rfl⟩
  · simp only [InlineCommentRemover.leaveTrailing, containsAnyKeyword,
      preservedKeywords, List.any_cons, List.any_nil, Bool.not_false,
      Bool.true_and, Bool.or_false]
    rw [Bool.or_assoc]
  · simp [InlineCommentRemover.leaveTrailing]
  · simp [InlineCommentRemover.leaveTrailing]

/-- The statement `print("x")`. -/
def printLine : Statement :=
  .SimpleStatementLine []
    [.Expr (.Call (.Name "print") [.SimpleString "\"x\""])] twNone

/-- The statement `obj.print("x")`. -/
def objPrintLine : Statement :=
  .SimpleStatementLine []
    [.Expr (.Call (.Attribute (.Name "obj") "print") [.SimpleString "\"x\""])]
    twNone

/-- The statement `x = print("x")`. -/
def assignPrintLine : Statement :=
  .SimpleStatementLine []
    [.Assign "x" (.Call (.Name "print") [.SimpleString "\"x\""])] twNone

/-- The statement `print("a") + 1`, a print call nested inside a larger
expression statement. -/
def nestedPrintLine : Statement :=
  .SimpleStatementLine []
    [.Expr (.BinaryOperation (.Call (.Name "print") [.SimpleString "\"a\""])
      "+" (.Integer "1"))] twNone

/-- A module with one removable print call and three lookalikes. -/
def c4Mod : Module :=
  Module.mk []
    (.cons printLine (.cons objPrintLine (.cons assignPrintLine
      (.cons nestedPrintLine .nil)))) []

/-- `c4Mod` after the print pass: only `print("x")` is gone. -/
def c4ModAfter : Module :=
  Module.mk []
    (.cons objPrintLine (.cons assignPrintLine (.cons nestedPrintLine .nil)))
    []

/-- The removal condition of the print remover holds exactly of a call whose
callee is the plain name `print`. -/
theorem matchesPrint_iff (v : Expression) :
    PrintRemover.matchesPrint v = true ↔
      ∃ args, v = Expression.Call (Expression.Name "print") args := by
  cases v with
  | Name x => simp [PrintRemover.matchesPrint, matchesCallNamePrint,
      matchesCallAttribute]
  | Integer x => simp [PrintRemover.matchesPrint, matchesCallNamePrint,
      matchesCallAttribute]
  | SimpleString x => simp [PrintRemover.matchesPrint, matchesCallNamePrint,
      matchesCallAttribute]
  | Attribute a b => simp [PrintRemover.matchesPrint, matchesCallNamePrint,
      matchesCallAttribute]
  | BinaryOperation a o b => simp [PrintRemover.matchesPrint,
      matchesCallNamePrint, matchesCallAttribute]
  | Call f args =>
    cases f <;> simp [PrintRemover.matchesPrint, matchesCallNamePrint,
      matchesCallAttribute]

/-- C4: the print remover removes a small statement iff it is a standalone
`Expr` whose sole content is a `Call` with the plain `Name` `print` as
callee; on a concrete module, `print("x")` is removed while `obj.print("x")`,
`x = print("x")` and `print("a") + 1` all survive. -/
theorem print_remover_call_shape :
    (∀ s : SmallStatement,
      (exprRemoverSmall PrintRemover.matchesPrint s).1 = none ↔
        ∃ args,
          s = SmallStatement.Expr (.Call (.Name "print") args)) ∧
    PrintRemover.pass c4Mod = (c4ModAfter, 1) := by
  refine ⟨fun s => ?_, rfl⟩
  cases s with
  | Expr v =>
    rw [show (exprRemoverSmall PrintRemover.matchesPrint (.Expr v)).1 =
        none ↔ PrintRemover.matchesPrint v = true from by
      cases hp : PrintRemover.matchesPrint v <;>
        simp [exprRemoverSmall, hp]]
    rw [matchesPrint_iff]
    simp
  | Assert t msg => simp [exprRemoverSmall]
  | Assign x v => simp [exprRemoverSmall]

/-- The statement `logger.debug("x")`. -/
def loggerDebugLine : Statement :=
  .SimpleStatementLine []
    [.Expr (.Call (.Attribute (.Name "logger") "debug")
      [.SimpleString "\"x\""])] twNone

/-- The statement `x = logger.debug("x")`. -/
def assignLoggerDebugLine : Statement :=
  .SimpleStatementLine []
    [.Assign "x" (.Call (.Attribute (.Name "logger") "debug")
      [.SimpleString "\"x\""])] twNone

/-- The statement `custom_logger.info("x")`. -/
def customLoggerLine : Statement :=
  .SimpleStatementLine []
    [.Expr (.Call (.Attribute (.Name "custom_logger") "info")
      [.SimpleString "\"x\""])] twNone

/-- A module with one removable log call and two lookalikes. -/
def c5Mod : Module :=
  Module.mk []
    (.cons loggerDebugLine
      (.cons assignLoggerDebugLine (.cons customLoggerLine .nil))) []

/-- `c5Mod` after the log pass: only `logger.debug("x")` is gone. -/
def c5ModAfter : Module :=
  Module.mk [] (.cons assignLoggerDebugLine (.cons customLoggerLine .nil)) []

/-- The removal condition of the log remover holds exactly of a call
`base.level(...)` with `base` in `{log, logger, logging}` and `level` in the
configured set. -/
theorem matchesLog_iff (log_levels : List String) (v : Expression) :
    LogRemover.matchesLog log_levels v = true ↔
      ∃ base_name level args,
        v = Expression.Call
          (Expression.Attribute (Expression.Name base_name) level) args ∧
        (base_name = "log" ∨ base_name = "logger" ∨ base_name = "logging") ∧
        level ∈ log_levels := by
  cases v with
  | Name x => simp [LogRemover.matchesLog]
  | Integer x => simp [LogRemover.matchesLog]
  | SimpleString x => simp [LogRemover.matchesLog]
  | Attribute a b => simp [LogRemover.matchesLog]
  | BinaryOperation a o b => simp [LogRemover.matchesLog]
  | Call f args =>
    cases f with
    | Name x => simp [LogRemover.matchesLog]
    | Integer x => simp [LogRemover.matchesLog]
    | SimpleString x => simp [LogRemover.matchesLog]
    | BinaryOperation a o b => simp [LogRemover.matchesLog]
    | Call g bs => simp [LogRemover.matchesLog]
    | Attribute base attr =>
      cases base with
      | Integer x => simp [LogRemover.matchesLog]
      | SimpleString x => simp [LogRemover.matchesLog]
      | Attribute a b => simp [LogRemover.matchesLog]
      | BinaryOperation a o b => simp [LogRemover.matchesLog]
      | Call g bs => simp [LogRemover.matchesLog]
      | Name bn =>
        simp only [LogRemover.matchesLog, Bool.and_eq_true]
        constructor
        · rintro ⟨h1, h2⟩
          refine ⟨bn, attr, args, rfl, by simpa using h2, by simpa using h1⟩
        · rintro ⟨base_name, level, args2, heq, hbase, hlevel⟩
          injection heq with hf ha
          injection hf with hv hat
          injection hv with hbn
          subst hbn
          subst hat
          refine ⟨by simpa using hlevel, ?_⟩
          rcases hbase with h | h | h <;> subst h <;> decide

/-- C5: the log remover removes a small statement iff it is a standalone
`Expr` whose sole expression is a call `base.level(...)` with
`base ∈ {log, logger, logging}` and `level` in the configured set; on a
concrete module with the default levels, `logger.debug("x")` is removed
while `x = logger.debug("x")` survives, and `custom_logger.info(...)` never
matches for any level set. -/
theorem log_remover_call_shape :
    (∀ (log_levels : List String) (s : SmallStatement),
      (exprRemoverSmall (LogRemover.matchesLog log_levels) s).1 = none ↔
        ∃ base_name level args,
          s = SmallStatement.Expr (.Call
            (.Attribute (.Name base_name) level) args) ∧
          (base_name = "log" ∨ base_name = "logger" ∨
            base_name = "logging") ∧
          level ∈ log_levels) ∧
    LogRemover.pass defaultLogLevels c5Mod = (c5ModAfter, 1) ∧
    (∀ (log_levels : List String) (args : List Expression),
      LogRemover.matchesLog log_levels
        (.Call (.Attribute (.Name "custom_logger") "info") args) = false) := by
  refine ⟨fun log_levels s => ?_, rfl,
    fun log_levels args => by simp [LogRemover.matchesLog]⟩
  cases s with
  | Expr v =>
    rw [show (exprRemoverSmall (LogRemover.matchesLog log_levels)
        (.Expr v)).1 = none ↔
        LogRemover.matchesLog log_levels v = true from by
      cases hp : LogRemover.matchesLog log_levels v <;>
        simp [exprRemoverSmall, hp]]
    rw [matchesLog_iff]
    simp
  | Assert t msg => simp [exprRemoverSmall]
  | Assign x v => simp [exprRemoverSmall]

/-- A second pass of an expression-statement remover over an already-swept
small-statement sequence removes nothing. -/
theorem exprRemoverSmalls_idem (p : Expression → Bool)
    (l : List SmallStatement) :
    exprRemoverSmalls p (exprRemoverSmalls p l).1 =
      ((exprRemoverSmalls p l).1, 0) := by
  induction l with
  | nil => rfl
  | cons s rest ih =>
    cases s with
    | Expr v =>
      cases hp : p v with
      | true => simp [exprRemoverSmalls, exprRemoverSmall, hp, ih]
      | false => simp [exprRemoverSmalls, exprRemoverSmall, hp, ih]
    | Assert t msg => simp [exprRemoverSmalls, exprRemoverSmall, ih]
    | Assign x v => simp [exprRemoverSmalls, exprRemoverSmall, ih]

mutual

/-- A statement an expression-statement remover keeps (possibly rewritten)
is kept unchanged, with count zero, by a second visit. -/
theorem exprRemoverStmt_idem (p : Expression → Bool) (s s' : Statement)
    (k : Nat) (h : exprRemoverStmt p s = (some s', k)) :
    exprRemoverStmt p s' = (some s', 0) := by
  cases s with
  | SimpleStatementLine ll body tw =>
    simp only [exprRemoverStmt] at h
    by_cases hc :
        ((exprRemoverSmalls p body).1.isEmpty && !body.isEmpty) = true
    · rw [if_pos hc] at h
      simp at h
    · rw [if_neg hc] at h
      injection h with h1 h2
      injection h1 with h1
      subst h1
      simp only [exprRemoverStmt, exprRemoverSmalls_idem p body,
        Bool.and_not_self]
      simp
  | FunctionDef ll n w body =>
    simp only [exprRemoverStmt] at h
    injection h with h1 h2
    injection h1 with h1
    subst h1
    simp only [exprRemoverStmt, exprRemoverStmts_idem p body]
  | ClassDef ll n w body =>
    simp only [exprRemoverStmt] at h
    injection h with h1 h2
    injection h1 with h1
    subst h1
    simp only [exprRemoverStmt, exprRemoverStmts_idem p body]

/-- A second pass of an expression-statement remover over an already-swept
statement sequence removes nothing. -/
theorem exprRemoverStmts_idem (p : Expression → Bool) (l : StatementList) :
    exprRemoverStmts p (exprRemoverStmts p l).1 =
      ((exprRemoverStmts p l).1, 0) := by
  cases l with
  | nil => rfl
  | cons s rest =>
    cases hs : exprRemoverStmt p s with
    | mk os k =>
      cases os with
      | none =>
        simp only [exprRemoverStmts, hs]
        exact exprRemoverStmts_idem p rest
      | some s' =>
        simp only [exprRemoverStmts, hs]
        simp only [exprRemoverStmts, exprRemoverStmt_idem p s s' k hs,
          exprRemoverStmts_idem p rest]

end

mutual

/-- A statement the assert remover keeps is kept, with count zero, by a
second visit. -/
theorem assertStmt_idem (s s' : Statement) (k : Nat)
    (h : assertStmt s = (some s', k)) : assertStmt s' = (some s', 0) := by
  cases s with
  | SimpleStatementLine ll body tw =>
    simp only [assertStmt] at h
    by_cases hc : AssertRemover.isAssertLine body = true
    · rw [if_pos hc] at h
      simp at h
    · rw [if_neg hc] at h
      injection h with h1 h2
      injection h1 with h1
      subst h1
      simp only [assertStmt, if_neg hc]
  | FunctionDef ll n w body =>
    simp only [assertStmt] at h
    injection h with h1 h2
    injection h1 with h1
    subst h1
    simp only [assertStmt, assertStmts_idem body]
  | ClassDef ll n w body =>
    simp only [assertStmt] at h
    injection h with h1 h2
    injection h1 with h1
    subst h1
    simp only [assertStmt, assertStmts_idem body]

/-- A second assert pass over an already-swept statement sequence removes
nothing. -/
theorem assertStmts_idem (l : StatementList) :
    assertStmts (assertStmts l).1 = ((assertStmts l).1, 0) := by
  cases l with
  | nil => rfl
  | cons s rest =>
    cases hs : assertStmt s with
    | mk os k =>
      cases os with
      | none =>
        simp only [assertStmts, hs]
        exact assertStmts_idem rest
      | some s' =>
        simp only [assertStmts, hs]
        simp only [assertStmts, assertStmt_idem s s' k hs,
          assertStmts_idem rest]

end

/-- A second visit of a trailing-whitespace node removes nothing: either the
comment was preserved (and is preserved again) or it is already gone. -/
theorem leaveTrailing_idem (ra : Bool) (tw : TrailingWhitespace) :
    InlineCommentRemover.leaveTrailing ra
        (InlineCommentRemover.leaveTrailing ra tw).1 =
      ((InlineCommentRemover.leaveTrailing ra tw).1, 0) := by
  cases tw with
  | mk ws c =>
    cases c with
    | none => rfl
    | some c =>
      by_cases h : (!ra && containsAnyKeyword c.value) = true
      · simp [InlineCommentRemover.leaveTrailing, h]
      · simp [InlineCommentRemover.leaveTrailing, h]

mutual

/-- A second inline-comment pass over an already-swept statement removes
nothing. -/
theorem inlineStmt_idem (ra : Bool) (s : Statement) :
    inlineStmt ra (inlineStmt ra s).1 = ((inlineStmt ra s).1, 0) := by
  cases s with
  | SimpleStatementLine ll body tw =>
    simp only [inlineStmt, leaveTrailing_idem ra tw]
  | FunctionDef ll n w body =>
    simp only [inlineStmt, leaveTrailing_idem ra w, inlineStmts_idem ra body]
  | ClassDef ll n w body =>
    simp only [inlineStmt, leaveTrailing_idem ra w, inlineStmts_idem ra body]

/-- A second inline-comment pass over an already-swept statement sequence
removes nothing. -/
theorem inlineStmts_idem (ra : Bool) (l : StatementList) :
    inlineStmts ra (inlineStmts ra l).1 = ((inlineStmts ra l).1, 0) := by
  cases l with
  | nil => rfl
  | cons s rest =>
    simp only [inlineStmts, inlineStmt_idem ra s, inlineStmts_idem ra rest]

end

/-- A module docstring line (a bare triple-quoted string statement). -/
def docstringLineA : Statement :=
  .SimpleStatementLine []
    [.Expr (.SimpleString "\"\"\"first docstring\"\"\"")] twNone

/-- A second bare string-literal statement right after the docstring. -/
def docstringLineB : Statement :=
  .SimpleStatementLine []
    [.Expr (.SimpleString "\"\"\"second string\"\"\"")] twNone

/-- A module whose first two statements are both bare string literals. -/
def c8Mod : Module :=
  Module.mk [] (.cons docstringLineA (.cons docstringLineB .nil)) []

/-- `c8Mod` after one docstring pass. -/
def c8ModOnce : Module := Module.mk [] (.cons docstringLineB .nil) []

/-- `c8Mod` after two docstring passes. -/
def c8ModTwice : Module := Module.mk [] .nil []

/-- C8 is false as stated: on a module whose second statement is also a bare
string-literal statement, the second application of the docstring pass
removes that statement too, reporting a count of 1 (not 0) and changing the
output text. -/
theorem pass_idempotence_counterexample :
    DocstringRemover.pass c8Mod = (c8ModOnce, 1) ∧
    DocstringRemover.pass c8ModOnce = (c8ModTwice, 1) ∧
    Module.code c8ModOnce ≠ Module.code c8ModTwice :=
  ⟨rfl, rfl, by decide⟩

/-- C8 (amended): the print, log, assert and inline-comment passes are
idempotent — a second application returns the tree unchanged and reports
zero removed; the leading and header comment passes always raise
`AttributeError` and never produce an output tree (every file they process
is left untouched); the docstring remover is NOT idempotent: when the
body's second statement is also a bare string-literal statement, the second
application removes it and reports a count of 1. -/
theorem passes_idempotent_except_docstring :
    (∀ m : Module,
      PrintRemover.pass (PrintRemover.pass m).1 =
        ((PrintRemover.pass m).1, 0)) ∧
    (∀ (log_levels : List String) (m : Module),
      LogRemover.pass log_levels (LogRemover.pass log_levels m).1 =
        ((LogRemover.pass log_levels m).1, 0)) ∧
    (∀ m : Module,
      AssertRemover.pass (AssertRemover.pass m).1 =
        ((AssertRemover.pass m).1, 0)) ∧
    (∀ (ra : Bool) (m : Module),
      InlineCommentRemover.pass ra (InlineCommentRemover.pass ra m).1 =
        ((InlineCommentRemover.pass ra m).1, 0)) ∧
    (∀ m : Module,
      LeadingCommentRemover.pass m = Except.error PyErr.attributeError) ∧
    (∀ m : Module,
      HeaderCommentRemover.pass m = Except.error PyErr.attributeError) ∧
    (DocstringRemover.pass (DocstringRemover.pass c8Mod).1).2 = 1 := by
  refine ⟨fun m => ?_, fun log_levels m => ?_, fun m => ?_, fun ra m => ?_,
    fun _ => rfl, fun _ => rfl, rfl⟩
  · simp [PrintRemover.pass, exprRemoverStmts_idem]
  · simp [LogRemover.pass, exprRemoverStmts_idem]
  · simp [AssertRemover.pass, assertStmts_idem]
  · simp [InlineCommentRemover.pass, inlineStmts_idem]

/-- A module holding a comment line, a `print("drop me")` statement under
it, and a statement `x = 1`. -/
def c1Mod : Module :=
  Module.mk []
    (.cons (.SimpleStatementLine
        [EmptyLine.mk "" (some (Comment.mk "# keep me"))]
        [.Expr (.Call (.Name "print") [.SimpleString "\"drop me\""])] twNone)
      (.cons (.SimpleStatementLine [] [.Assign "x" (.Integer "1")] twNone)
        .nil)) []

/-- `c1Mod` after the print pass: the comment line is gone too. -/
def c1ModAfter : Module :=
  Module.mk []
    (.cons (.SimpleStatementLine [] [.Assign "x" (.Integer "1")] twNone)
      .nil) []

/-- A module holding a comment line, an `assert ok` statement under it, and
a statement `y = 2`. -/
def c1aMod : Module :=
  Module.mk []
    (.cons (.SimpleStatementLine
        [EmptyLine.mk "" (some (Comment.mk "# note"))]
        [.Assert (.Name "ok") none] twNone)
      (.cons (.SimpleStatementLine [] [.Assign "y" (.Integer "2")] twNone)
        .nil)) []

/-- `c1aMod` after the assert pass: the comment line is gone too. -/
def c1aModAfter : Module :=
  Module.mk []
    (.cons (.SimpleStatementLine [] [.Assign "y" (.Integer "2")] twNone)
      .nil) []

/-- C1 is false as stated: the comment line above a removed `print` or
`assert` statement is NOT promoted — it disappears from the tree and from
the output text, because `RemovalSentinel.REMOVE` drops the
`SimpleStatementLine` together with its `leading_lines` and neither remover
re-attaches them. -/
theorem removed_statement_comment_dropped_counterexample :
    PrintRemover.pass c1Mod = (c1ModAfter, 1) ∧
    strContains "# keep me" (Module.code c1Mod) = true ∧
    strContains "# keep me" (Module.code (PrintRemover.pass c1Mod).1) =
      false ∧
    AssertRemover.pass c1aMod = (c1aModAfter, 1) ∧
    strContains "# note" (Module.code c1aMod) = true ∧
    strContains "# note" (Module.code (AssertRemover.pass c1aMod).1) =
      false := by
  refine ⟨rfl, ?_, ?_, rfl, ?_, ?_⟩ <;> decide

/-- C1 (amended): for every statement removed by the print or assert
remover, the leading trivia is discarded along with it — whatever leading
lines (comments included) the removed line carried, the rewritten sequence
continues directly with the rest, so the comment lines above a removed
statement are absent from the output. -/
theorem removed_statement_comment_dropped :
    (∀ (ll : List EmptyLine) (args : List Expression)
        (tw : TrailingWhitespace) (rest : StatementList),
      exprRemoverStmts PrintRemover.matchesPrint
          (.cons (.SimpleStatementLine ll
            [.Expr (.Call (.Name "print") args)] tw) rest) =
        ((exprRemoverStmts PrintRemover.matchesPrint rest).1,
          1 + (exprRemoverStmts PrintRemover.matchesPrint rest).2)) ∧
    (∀ (ll : List EmptyLine) (t : Expression) (msg : Option Expression)
        (tw : TrailingWhitespace) (rest : StatementList),
      assertStmts
          (.cons (.SimpleStatementLine ll [.Assert t msg] tw) rest) =
        ((assertStmts rest).1, 1 + (assertStmts rest).2)) :=
  ⟨fun _ _ _ _ => rfl, fun _ _ _ _ _ => rfl⟩

/-- C3 (bug): in header comment mode nothing is ever removed — the only
hook, `leave_Module`, raises `AttributeError` reading
`Module.leading_lines`, so every file is skipped with zero counts, even
though a shebang, a coding declaration and a vim modeline all satisfy the
hook's own classification test. -/
theorem header_mode_crashes :
    (∀ m : Module,
      HeaderCommentRemover.pass m = Except.error PyErr.attributeError) ∧
    (∀ (source_code : String) (m : Module),
      process_file source_code (some m) headerReq =
        (source_code, Counts.zero)) ∧
    HeaderCommentRemover.isHeaderComment "#!/usr/bin/env python3" = true ∧
    HeaderCommentRemover.isHeaderComment "# -*- coding: utf-8 -*-" = true ∧
    HeaderCommentRemover.isHeaderComment "# vim: set ts=4:" = true := by
  refine ⟨fun _ => rfl, fun _ _ => rfl, ?_, ?_, ?_⟩ <;> decide

end Tidy
